import Mathlib

/-!
Verification of the catalog-page link scraper (main source file) and the
per-item metadata extractor (image-download source file).

The harvesting session revolves around string-level URL validation, a
monotone discovered-link set, bounded pagination loops, a container-locator
cascade, and a fixed-shape metadata record builder.  Each of those is
embedded below as an executable Lean definition translated from the source,
and the stated properties are settled as theorems about the embedding.
-/

set_option maxRecDepth 4000

namespace Scraper

/-! ## String primitives

The source relies on the Python membership test for substrings
(the expression pat in s), on startswith, on strip and on
split with a count of one.  These are embedded over the character
lists underlying Lean strings. -/

/-- `leadingMatch pat s` is true when the character list `pat` occurs at the
front of `s` (the startswith test). -/
def leadingMatch : List Char → List Char → Bool
  | [], _ => true
  | _ :: _, [] => false
  | p :: ps, c :: cs => p == c && leadingMatch ps cs

/-- `hasSub pat s` is true when `pat` occurs as a contiguous substring of
`s` (the Python membership test pat in s). -/
def hasSub (pat : List Char) : List Char → Bool
  | [] => leadingMatch pat []
  | c :: cs => leadingMatch pat (c :: cs) || hasSub pat cs

/-- Substring containment lifted to `String`. -/
def strContains (s pat : String) : Bool :=
  hasSub pat.data s.data

/-- Python strip on a character list: drop whitespace from both ends. -/
def stripChars (l : List Char) : List Char :=
  ((l.dropWhile Char.isWhitespace).reverse.dropWhile Char.isWhitespace).reverse

/-- Python strip on a string. -/
def pyStrip (s : String) : String :=
  ⟨stripChars s.data⟩

/-- Python split with count one on the colon character:
`"a:b:c"` becomes the pair `("a", "b:c")`. -/
def splitFirstColon (s : String) : String × String :=
  (⟨s.data.takeWhile (fun c => c ≠ ':')⟩,
   ⟨(s.data.dropWhile (fun c => c ≠ ':')).drop 1⟩)

/-! ## Link validation (is_valid_painting_link in the main source) -/

/-- The scraper's base origin, field `base_url` of the scraper class. -/
def base_url : String := "https://artsandculture.google.com"

/-- Resolution of a path-absolute reference against the base origin.  The
source applies urljoin(base_url, url) exactly when the reference starts
with a slash; since `base_url` is an origin with an empty path, urljoin
specializes to prepending the origin, and to prepending only the scheme for
a protocol-relative reference starting with two slashes. -/
def resolve_relative (url : String) : String :=
  if leadingMatch ['/'] url.data then
    if leadingMatch ['/', '/'] url.data then "https:" ++ url else base_url ++ url
  else url

/-- The denylist of non-item path segments (`invalid_patterns` in the
source). -/
def invalid_patterns : List String :=
  ["/search", "/explore", "/story", "/exhibit", "/theme"]

/-- Embedding of `is_valid_painting_link`.  The argument is an optional
string: `none` is Python None, and the leading falsiness test rejects both
None and the empty string.  The remaining tests are substring tests against
the (possibly resolved) reference, in source order. -/
def is_valid_painting_link (url : Option String) : Bool :=
  match url with
  | none => false
  | some u =>
    if u = "" then false
    else
      let r := resolve_relative u
      if !strContains r "artsandculture.google.com" then false
      else if !(strContains r "/asset/" || strContains r "/artwork/") then false
      else if strContains r "/entity/hokusai" && strContains r "categoryid=artist" then false
      else if invalid_patterns.any (fun p => strContains r p) then false
      else true

/-- Split a character list at the first occurrence of the scheme separator
`://`, returning the parts before and after it. -/
def splitSchemeSep : List Char → Option (List Char × List Char)
  | [] => none
  | c :: cs =>
    if leadingMatch [':', '/', '/'] (c :: cs) then some ([], cs.drop 2)
    else
      match splitSchemeSep cs with
      | some (pre, post) => some (c :: pre, post)
      | none => none

/-- Origin of an absolute URL, modelled from the spec: the scheme together
with the host, i.e. everything up to the first slash after the scheme
separator.  The source never computes this; the spec phrases validation in
terms of it. -/
def originOf (u : String) : String :=
  match splitSchemeSep u.data with
  | some (scheme, rest) => ⟨scheme⟩ ++ "://" ++ ⟨rest.takeWhile (fun c => c ≠ '/')⟩
  | none => ""

/-! ## Link harvesting (scrape_visible_links in the main source)

A harvested element carries the attributes the source inspects: the direct
reference attribute href, the secondary attribute data-href, and the list
of reference-shaped substrings that the regular expression extracts from
the inline onclick handler.  The container is represented by the lists of
elements that the ordered selector rules return; every rule's matches are
processed, none short-circuits the others. -/

structure LinkElem where
  href : Option String
  dataHref : Option String
  onclickUrls : List String
  deriving DecidableEq

/-- The candidate references collected from one element, in source order:
href, data-href, then the onclick extractions. -/
def potentialUrls (e : LinkElem) : List (Option String) :=
  [e.href, e.dataHref] ++ e.onclickUrls.map some

/-- Processing of one candidate reference: the source adds the original
(unresolved) url to the discovered set when the reference is truthy and
passes `is_valid_painting_link`. -/
def addCandidate (s : Finset String) (c : Option String) : Finset String :=
  match c with
  | none => s
  | some u => if u ≠ "" && is_valid_painting_link (some u) then insert u s else s

/-- Processing of one matched element: every candidate reference it yields
is run through `addCandidate`. -/
def addElem (s : Finset String) (e : LinkElem) : Finset String :=
  (potentialUrls e).foldl addCandidate s

/-- Embedding of `scrape_visible_links`.  The first component is the
discovered set after the pass (the mutation of the scraped-links field);
the second component is the value the Python function returns.  The
function body has no return statement, so that value is None, embedded as
`none`. -/
def scrape_visible_links (scraped : Finset String)
    (selectorResults : List (List LinkElem)) : Finset String × Option Nat :=
  (selectorResults.foldl (fun s elems => elems.foldl addElem s) scraped, none)

/-- The set of links one pass harvests on its own, i.e. starting from the
empty discovered set. -/
def harvestedSet (selectorResults : List (List LinkElem)) : Finset String :=
  (scrape_visible_links ∅ selectorResults).1

/-! ## The per-control advance loop (navigate_with_buttons in the main
source)

One loop iteration clicks the control, waits, re-harvests, and updates the
stagnation counter.  The surrounding page is abstracted as an environment
mapping the iteration number to that iteration's outcome: either the click
raises (the except branch) or it succeeds and the subsequent harvest sees a
given snapshot of selector results, with the control possibly looking
disabled afterwards. -/

inductive StepOutcome where
  | fail
  | ok (snapshot : List (List LinkElem)) (buttonDisabled : Bool)

/-- Embedding of the while loop of `navigate_with_buttons` for a single
control.  State: the discovered set, the iteration counter `step` indexing
the environment, `totalClicks` (only successful clicks count), and the
stagnation counter `cwnc` (clicks_without_new_content).  The loop guard,
the counter updates, the disabled-check break and the failure tolerance of
three follow the source.  Returns the final click count and discovered
set. -/
def navigate_with_buttons_loop (env : Nat → StepOutcome) (scraped : Finset String)
    (step totalClicks cwnc : Nat) : Nat × Finset String :=
  if _h : totalClicks < 50 ∧ cwnc < 5 then
    match env step with
    | StepOutcome.fail =>
        let c := cwnc + 1
        if c ≥ 3 then (totalClicks, scraped)
        else navigate_with_buttons_loop env scraped (step + 1) totalClicks c
    | StepOutcome.ok snapshot buttonDisabled =>
        let before := scraped.card
        let scraped2 := (scrape_visible_links scraped snapshot).1
        let newLinks := scraped2.card - before
        let c := if newLinks > 0 then 0 else cwnc + 1
        if buttonDisabled then (totalClicks + 1, scraped2)
        else navigate_with_buttons_loop env scraped2 (step + 1) (totalClicks + 1) c
  else (totalClicks, scraped)
termination_by (50 - totalClicks) * 6 + (5 - cwnc)
decreasing_by
  · omega
  · omega

/-! ## Strategy order of the session (scroll_and_load_content and
scrape_all_links in the main source) -/

inductive Strategy where
  | controls
  | coordScroll
  | keyboard
  | wheel
  | fractionalScroll
  deriving DecidableEq

/-- Strategies executed by `scroll_and_load_content`: when a navigation
control container is found and yields clickable controls, the pass runs
button navigation; in every other branch it runs the incremental
coordinate-scroll fallback. -/
def scroll_and_load_content_trace (buttonContainerFound controlsFound : Bool) :
    List Strategy :=
  if !buttonContainerFound then [Strategy.coordScroll]
  else if controlsFound then [Strategy.controls]
  else [Strategy.coordScroll]

/-- Strategies executed by the final comprehensive sweep
(`scrape_all_links`): arrow-key stepping, synthetic wheel events, then
scroll-offset revisits at fractional positions. -/
def scrape_all_links_trace : List Strategy :=
  [Strategy.keyboard, Strategy.wheel, Strategy.fractionalScroll]

/-- The strategies the session executes after the initial harvest, in
order: the scroll-and-load pass followed unconditionally by the
comprehensive sweep (steps 4 and 5 of `start_scraping`). -/
def session_trace (buttonContainerFound controlsFound : Bool) : List Strategy :=
  scroll_and_load_content_trace buttonContainerFound controlsFound ++
    scrape_all_links_trace

/-! ## Container location (find_collection_container and
find_any_link_container in the main source)

An element handle is abstracted as an identifier; the last-resort query's
candidates carry the count of item-like links they contain. -/

inductive Container where
  | body
  | elem (id : Nat)
  deriving DecidableEq

/-- The greedy-max pick of the last-resort search: fold over the candidate
elements keeping the first one with a strictly larger asset-link count than
any seen so far (`best_container` and `max_links` in the source). -/
def bestCandidate (cands : List (Nat × Nat)) : Option Nat × Nat :=
  cands.foldl (fun acc c => if c.2 > acc.2 then (some c.1, c.2) else acc) (none, 0)

/-- Embedding of `find_any_link_container`: if the document query produced
candidate elements and one of them won the greedy-max pick, return it;
otherwise return the document body. -/
def find_any_link_container (cands : List (Nat × Nat)) : Container :=
  if cands ≠ [] then
    match (bestCandidate cands).1 with
    | some i => Container.elem i
    | none => Container.body
  else Container.body

/-- First successful lookup among the ordered fallback selectors: each is
accepted immediately when the query returns an element. -/
def firstFound : List (Option Container) → Option Container
  | [] => none
  | some c :: _ => some c
  | none :: rest => firstFound rest

/-- Embedding of `find_collection_container`: the exact path first, then
the fallback cascade, then the last-resort search of
`find_any_link_container`. -/
def find_collection_container (exact : Option Container)
    (fallbacks : List (Option Container)) (lastResort : List (Nat × Nat)) :
    Container :=
  match exact with
  | some c => c
  | none =>
    match firstFound fallbacks with
    | some c => c
    | none => find_any_link_container lastResort

end Scraper

namespace Extractor

/-! ## Metadata extraction (the image-download source file)

An item page is abstracted as the list of its list blocks, each block
being the list of the texts of its entries, plus the image filename the
og:image step computes when that meta tag is present.  A metadata record
is an association list from field names to values, built from the fixed
field-name list. -/

/-- The fixed field-name list (`fieldnames` in the source). -/
def fieldnames : List String :=
  ["Index", "Image Filename", "Title", "Creator", "Date Created",
   "Physical Dimensions", "Medium", "Object Classification", "Full Title",
   "Curatorial Area", "Credit Line", "Chronology",
   "Artwork Accession Number", "Page URL"]

/-- Assignment to an existing key of a record: every pair whose key matches
is overwritten.  The source only assigns keys guarded to lie in
`fieldnames`, where dictionary assignment is exactly this overwrite. -/
def setField (m : List (String × String)) (k v : String) : List (String × String) :=
  m.map (fun p => if p.1 = k then (k, v) else p)

/-- Lookup of a key in a record. -/
def lookupField (k : String) : List (String × String) → Option String
  | [] => none
  | (k2, v) :: rest => if k2 = k then some v else lookupField k rest

/-- The record a fresh item starts from: every field name mapped to the
empty string, then Index and Page URL filled in. -/
def initMetadata (index : Nat) (url : String) : List (String × String) :=
  setField (setField (fieldnames.map (fun k => (k, ""))) "Index" (toString index))
    "Page URL" url

/-- The og:image step: when the meta tag yields an image, the computed
filename is stored under Image Filename; otherwise the record is left
unchanged.  The filename computation itself is outside the extraction
claims and is abstracted as the optional input. -/
def ogImageStep (m : List (String × String)) (imageFilename : Option String) :
    List (String × String) :=
  match imageFilename with
  | some fn => setField m "Image Filename" fn
  | none => m

/-- Processing of one list entry: when the text contains a colon, split on
the first colon, strip both sides, and store the value when the stripped
label is one of the fixed field names; otherwise leave the record
unchanged. -/
def processEntry (m : List (String × String)) (liText : String) :
    List (String × String) :=
  if liText.data.contains ':' then
    let parts := Scraper.splitFirstColon liText
    let key := Scraper.pyStrip parts.1
    let value := Scraper.pyStrip parts.2
    if key ∈ fieldnames then setField m key value else m
  else m

/-- The label an entry would be stored under: the part before the first
colon, stripped — the expression the source compares against the field
names. -/
def entryLabel (e : String) : String :=
  Scraper.pyStrip (Scraper.splitFirstColon e).1

/-- The block the extractor reads: the last list block of the page
(`ul_elements[-1]` under the nonemptiness check). -/
def lastBlock : List (List String) → Option (List String)
  | [] => none
  | [b] => some b
  | _ :: b :: rest => lastBlock (b :: rest)

/-- Full per-item extraction on a successfully fetched page: initialize
the fixed-shape record, run the og:image step, then fold the entries of
the last list block through `processEntry`; a page with no list blocks
leaves the record as initialized. -/
def processItem (index : Nat) (url : String) (imageFilename : Option String)
    (page : List (List String)) : List (String × String) :=
  let m := ogImageStep (initMetadata index url) imageFilename
  match lastBlock page with
  | some block => block.foldl processEntry m
  | none => m

/-- The record emitted from the except branch for a failed item: all
fields empty, then Index and Page URL filled in (`error_metadata` in the
source). -/
def error_metadata (index : Nat) (url : String) : List (String × String) :=
  setField (setField (fieldnames.map (fun k => (k, ""))) "Index" (toString index))
    "Page URL" url

/-- The outcome of fetching and parsing one item, as seen by the per-item
loop: either a page snapshot (with the computed image filename, when any),
or any exception raised while processing the item. -/
inductive FetchResult where
  | ok (imageFilename : Option String) (page : List (List String))
  | err

/-- The per-item loop: one record is written per item, in order, with the
one-based index threaded through; a failed item contributes its
`error_metadata` row and the loop continues with the next item. -/
def processAll (index : Nat) : List (String × FetchResult) → List (List (String × String))
  | [] => []
  | (url, FetchResult.ok imageFilename page) :: rest =>
      processItem index url imageFilename page :: processAll (index + 1) rest
  | (url, FetchResult.err) :: rest =>
      error_metadata index url :: processAll (index + 1) rest

end Extractor

/-! ## Supporting lemmas -/

namespace Scraper

lemma addCandidate_union (s t : Finset String) (c : Option String) :
    addCandidate (s ∪ t) c = s ∪ addCandidate t c := by
  cases c with
  | none => rfl
  | some u =>
    by_cases h : ¬u = "" ∧ is_valid_painting_link (some u) = true
    · simp [addCandidate, h, Finset.union_insert]
    · simp [addCandidate, h]

lemma foldl_union {α : Type} (g : Finset String → α → Finset String)
    (hg : ∀ s t x, g (s ∪ t) x = s ∪ g t x) (l : List α) (s t : Finset String) :
    l.foldl g (s ∪ t) = s ∪ l.foldl g t := by
  induction l generalizing t with
  | nil => rfl
  | cons x xs ih => simp only [List.foldl_cons, hg]; exact ih (g t x)

lemma addElem_union (s t : Finset String) (e : LinkElem) :
    addElem (s ∪ t) e = s ∪ addElem t e :=
  foldl_union addCandidate addCandidate_union (potentialUrls e) s t

lemma scrape_eq_union (s : Finset String) (res : List (List LinkElem)) :
    (scrape_visible_links s res).1 = s ∪ harvestedSet res := by
  have hg : ∀ (a b : Finset String) (elems : List LinkElem),
      elems.foldl addElem (a ∪ b) = a ∪ elems.foldl addElem b :=
    fun a b elems => foldl_union addElem addElem_union elems a b
  have : res.foldl (fun a elems => elems.foldl addElem a) (s ∪ ∅)
      = s ∪ res.foldl (fun a elems => elems.foldl addElem a) ∅ :=
    foldl_union _ (fun a b elems => hg a b elems) res s ∅
  simpa [scrape_visible_links, harvestedSet] using this

lemma card_union_sub (s h : Finset String) :
    (s ∪ h).card - s.card = (h \ s).card := by
  have h1 := Finset.card_sdiff_add_card h s
  have h2 : (s ∪ h).card = (h ∪ s).card := by rw [Finset.union_comm]
  omega

lemma firstFound_eq_none (l : List (Option Container)) (h : ∀ f ∈ l, f = none) :
    firstFound l = none := by
  induction l with
  | nil => rfl
  | cons a t ih =>
    have ha : a = none := h a (List.mem_cons_self a t)
    subst ha
    exact ih (fun f hf => h f (List.mem_cons_of_mem none hf))

lemma loop_clicks_le (env : Nat → StepOutcome) (scraped : Finset String)
    (step totalClicks cwnc : Nat) :
    totalClicks ≤ 50 → (navigate_with_buttons_loop env scraped step totalClicks cwnc).1 ≤ 50 := by
  induction scraped, step, totalClicks, cwnc using navigate_with_buttons_loop.induct env with
  | case1 s st tc cw hlt heq c hge =>
    intro _
    rw [navigate_with_buttons_loop, dif_pos hlt]
    simp only [heq]
    rw [if_pos (show cw + 1 ≥ 3 from hge)]
    exact Nat.le_of_lt hlt.1
  | case2 s st tc cw hlt heq c hge ih =>
    intro h
    rw [navigate_with_buttons_loop, dif_pos hlt]
    simp only [heq]
    rw [if_neg (show ¬cw + 1 ≥ 3 from hge)]
    exact ih h
  | case3 s st tc cw hlt snapshot heq =>
    intro _
    rw [navigate_with_buttons_loop, dif_pos hlt]
    simp only [heq]
    exact hlt.1
  | case4 s st tc cw hlt snapshot bd heq before scraped2 newLinks c hbd ih =>
    intro _
    rw [navigate_with_buttons_loop, dif_pos hlt]
    simp only [heq]
    rw [if_neg hbd]
    exact ih (by omega)
  | case5 s st tc cw hge =>
    intro h
    rw [navigate_with_buttons_loop, dif_neg hge]
    exact h

lemma loop_stagnation_exit :
    (navigate_with_buttons_loop (fun _ => StepOutcome.ok [] false) ∅ 0 0 0).1 = 5 := by
  simp [navigate_with_buttons_loop, scrape_visible_links]

end Scraper

namespace Extractor

lemma setField_cons (x : String × String) (l : List (String × String)) (k v : String) :
    setField (x :: l) k v = (if x.1 = k then (k, v) else x) :: setField l k v := rfl

lemma lookupField_cons (k : String) (x : String × String) (l : List (String × String)) :
    lookupField k (x :: l) = if x.1 = k then some x.2 else lookupField k l := rfl

lemma lookup_setField_self (l : List (String × String)) (k v : String) :
    lookupField k (setField l k v) = (lookupField k l).map (fun _ => v) := by
  induction l with
  | nil => rfl
  | cons x t ih =>
    by_cases h : x.1 = k
    · simp [setField_cons, lookupField_cons, h, ih]
    · simp [setField_cons, lookupField_cons, h, ih]

lemma lookup_setField_ne (l : List (String × String)) (k k2 v : String)
    (h : k2 ≠ k) : lookupField k (setField l k2 v) = lookupField k l := by
  induction l with
  | nil => rfl
  | cons x t ih =>
    by_cases ha : x.1 = k2
    · simp [setField_cons, lookupField_cons, ha, h, ih]
    · simp [setField_cons, lookupField_cons, ha, ih]

lemma lookup_map_const (l : List String) (k : String) (h : k ∈ l) :
    lookupField k (l.map (fun x => (x, ""))) = some "" := by
  induction l with
  | nil => cases h
  | cons a t ih =>
    by_cases ha : a = k
    · simp [lookupField, ha]
    · rcases List.mem_cons.mp h with h1 | h1
      · exact absurd h1.symm ha
      · simp [lookupField, ha, ih h1]

lemma keys_setField (l : List (String × String)) (k v : String) :
    (setField l k v).map Prod.fst = l.map Prod.fst := by
  induction l with
  | nil => rfl
  | cons x t ih =>
    by_cases h : x.1 = k
    · simp [setField_cons, h, ih]
    · simp [setField_cons, h, ih]

lemma keys_initMetadata (i : Nat) (u : String) :
    (initMetadata i u).map Prod.fst = fieldnames := rfl

lemma keys_ogImageStep (m : List (String × String)) (img : Option String) :
    (ogImageStep m img).map Prod.fst = m.map Prod.fst := by
  cases img with
  | none => rfl
  | some fn => exact keys_setField m "Image Filename" fn

lemma keys_processEntry (m : List (String × String)) (e : String) :
    (processEntry m e).map Prod.fst = m.map Prod.fst := by
  simp only [processEntry]
  split
  · split
    · apply keys_setField
    · rfl
  · rfl

lemma keys_foldl_processEntry (block : List String) (m : List (String × String)) :
    (block.foldl processEntry m).map Prod.fst = m.map Prod.fst := by
  induction block generalizing m with
  | nil => rfl
  | cons e t ih => rw [List.foldl_cons, ih, keys_processEntry]

lemma keys_processItem (i : Nat) (u : String) (img : Option String)
    (page : List (List String)) :
    (processItem i u img page).map Prod.fst = fieldnames := by
  rcases hl : lastBlock page with _ | block
  · simp only [processItem, hl]
    rw [keys_ogImageStep, keys_initMetadata]
  · simp only [processItem, hl]
    rw [keys_foldl_processEntry, keys_ogImageStep, keys_initMetadata]

lemma lookup_foldl_unmatched (block : List String) (m : List (String × String))
    (k : String) (h : ∀ e ∈ block, entryLabel e ≠ k) :
    lookupField k (block.foldl processEntry m) = lookupField k m := by
  induction block generalizing m with
  | nil => rfl
  | cons e t ih =>
    rw [List.foldl_cons, ih _ (fun x hx => h x (List.mem_cons_of_mem e hx))]
    have he := h e (List.mem_cons_self e t)
    simp only [processEntry]
    split
    · split
      · exact lookup_setField_ne _ _ _ _ he
      · rfl
    · rfl

lemma lookup_initMetadata_other (i : Nat) (u k : String) (hk : k ∈ fieldnames)
    (h1 : k ≠ "Index") (h2 : k ≠ "Page URL") :
    lookupField k (initMetadata i u) = some "" := by
  unfold initMetadata
  rw [lookup_setField_ne _ _ _ _ (Ne.symm h2), lookup_setField_ne _ _ _ _ (Ne.symm h1)]
  exact lookup_map_const fieldnames k hk

lemma lookup_ogImageStep_other (m : List (String × String)) (img : Option String)
    (k : String) (h : k ≠ "Image Filename") :
    lookupField k (ogImageStep m img) = lookupField k m := by
  cases img with
  | none => rfl
  | some fn => exact lookup_setField_ne _ _ _ _ (Ne.symm h)

lemma lookup_error_index (i : Nat) (u : String) :
    lookupField "Index" (error_metadata i u) = some (toString i) := by
  unfold error_metadata
  rw [lookup_setField_ne _ _ _ _ (by decide : ("Page URL" : String) ≠ "Index")]
  rw [lookup_setField_self]
  rw [lookup_map_const fieldnames "Index" (by decide)]
  rfl

lemma lookup_error_pageurl (i : Nat) (u : String) :
    lookupField "Page URL" (error_metadata i u) = some u := by
  unfold error_metadata
  rw [lookup_setField_self]
  rw [lookup_setField_ne _ _ _ _ (by decide : ("Index" : String) ≠ "Page URL")]
  rw [lookup_map_const fieldnames "Page URL" (by decide)]
  rfl

lemma processAll_length (items : List (String × FetchResult)) :
    ∀ index : Nat, (processAll index items).length = items.length := by
  induction items with
  | nil => intro index; rfl
  | cons p t ih =>
    intro index
    obtain ⟨url, r⟩ := p
    cases r <;> simp [processAll, ih]

end Extractor

/-! ## Claim theorems -/

open Scraper Extractor

/-- C1: for the fixed denylist and the known base origin (the host
artsandculture.google.com is the target site of the claim, and
other-site.example stands for any off-origin site), the link validator
rejects None, the empty string, the search page and the off-origin asset
link, and accepts both the absolute on-origin item link and the relative
reference /asset/123 after resolving it against the base origin. -/
theorem c1_validator_cases :
    is_valid_painting_link none = false
    ∧ is_valid_painting_link (some "") = false
    ∧ is_valid_painting_link (some "/search?x=1") = false
    ∧ is_valid_painting_link (some "https://other-site.example/asset/9") = false
    ∧ is_valid_painting_link (some "https://artsandculture.google.com/asset/123") = true
    ∧ is_valid_painting_link (some "/asset/123") = true := by
  decide

/-- C2 counterexample: a harvester pass that newly adds one link to the
empty discovered set still returns None — the function has no return
statement — rather than the count 1 of newly added links, refuting the
claim that the pass returns that count. -/
theorem c2_counterexample_returns_none :
    (scrape_visible_links ∅
      [[{ href := some "https://artsandculture.google.com/asset/123",
          dataHref := none, onclickUrls := [] }]]).2 = none
    ∧ (scrape_visible_links ∅
      [[{ href := some "https://artsandculture.google.com/asset/123",
          dataHref := none, onclickUrls := [] }]]).1.card = 1 := by
  exact ⟨rfl, by decide⟩

/-- C2 amended: a harvester pass inserts every validated candidate into
the discovered set and returns no value; the count of newly added links —
which the caller computes as the difference of set sizes — equals the
number of harvested links not already present, so already-seen links are
deduplicated silently and contribute zero to that count. -/
theorem c2_pass_effect (s : Finset String) (res : List (List LinkElem)) :
    (scrape_visible_links s res).1 = s ∪ harvestedSet res
    ∧ (scrape_visible_links s res).2 = none
    ∧ (scrape_visible_links s res).1.card - s.card = (harvestedSet res \ s).card
    ∧ (harvestedSet res ⊆ s → (scrape_visible_links s res).1.card - s.card = 0) := by
  refine ⟨scrape_eq_union s res, rfl, ?_, ?_⟩
  · rw [scrape_eq_union]
    exact card_union_sub s (harvestedSet res)
  · intro hsub
    rw [scrape_eq_union, Finset.union_eq_left.mpr hsub, Nat.sub_self]

theorem c2_pass_effect_witness :
    harvestedSet
      [[{ href := some "https://artsandculture.google.com/asset/123",
          dataHref := none, onclickUrls := [] }]]
      ⊆ {"https://artsandculture.google.com/asset/123"}
    ∧ (scrape_visible_links {"https://artsandculture.google.com/asset/123"}
      [[{ href := some "https://artsandculture.google.com/asset/123",
          dataHref := none, onclickUrls := [] }]]).1.card
      - ({"https://artsandculture.google.com/asset/123"} : Finset String).card = 0 :=
  ⟨by decide, (c2_pass_effect _ _).2.2.2 (by decide)⟩

/-- C3 counterexample: the validator accepts a reference whose resolved
origin is https://evil.example, because the target host name occurs as a
substring of its path; acceptance therefore does not imply that the
resolved origin equals the target site origin, refuting the claim. -/
theorem c3_counterexample_foreign_origin :
    is_valid_painting_link
      (some "https://evil.example/artsandculture.google.com/asset/1") = true
    ∧ originOf (resolve_relative
        "https://evil.example/artsandculture.google.com/asset/1")
      ≠ originOf base_url := by
  decide

/-- C3 amended: validation checks that the target host name occurs as a
substring of the reference after resolving a leading-slash reference
against the base origin — not that the resolved origin equals the target
origin — so every accepted reference satisfies that substring condition. -/
theorem c3_accepted_contains_host (u : String)
    (h : is_valid_painting_link (some u) = true) :
    strContains (resolve_relative u) "artsandculture.google.com" = true := by
  simp only [is_valid_painting_link] at h
  by_cases h0 : u = ""
  · rw [if_pos h0] at h
    cases h
  · rw [if_neg h0] at h
    cases hc : strContains (resolve_relative u) "artsandculture.google.com" with
    | true => rfl
    | false => rw [hc] at h; simp at h

theorem c3_accepted_contains_host_witness :
    strContains (resolve_relative "https://artsandculture.google.com/asset/123")
      "artsandculture.google.com" = true :=
  c3_accepted_contains_host "https://artsandculture.google.com/asset/123" (by decide)

/-- C4: the per-control advance loop of the controls strategy performs at
most its action cap of 50 advance actions before stopping, for every
environment — in particular environments that produce a trickle of new
links and reset the stagnation counter arbitrarily often; the loop is a
total function of its inputs, so it terminates. -/
theorem c4_click_cap (env : Nat → StepOutcome) (scraped : Finset String) (step : Nat) :
    (navigate_with_buttons_loop env scraped step 0 0).1 ≤ 50 :=
  loop_clicks_le env scraped step 0 0 (by omega)

/-- C5 counterexample: in an environment yielding no new links, the
controls loop is exhausted after exactly 5 advances, and the strategy the
session executes right after the controls strategy is keyboard stepping,
not coordinate-based scrolling, refuting the claimed fall-through
order. -/
theorem c5_counterexample_next_strategy :
    (navigate_with_buttons_loop (fun _ => StepOutcome.ok [] false) ∅ 0 0 0).1 = 5
    ∧ (session_trace true true).get? 1 ≠ some Strategy.coordScroll := by
  exact ⟨loop_stagnation_exit, by decide⟩

/-- C5 amended: five consecutive non-productive advances exhaust the
controls loop, and the driver then proceeds to the comprehensive sweep —
keyboard stepping, wheel events, then fractional coordinate revisits; the
incremental coordinate-scroll fallback runs instead of the controls
strategy only when no navigation controls are found, never as the
successor of an exhausted controls strategy. -/
theorem c5_exhaustion_flow :
    (navigate_with_buttons_loop (fun _ => StepOutcome.ok [] false) ∅ 0 0 0).1 = 5
    ∧ session_trace true true
      = [Strategy.controls, Strategy.keyboard, Strategy.wheel, Strategy.fractionalScroll]
    ∧ session_trace true false
      = [Strategy.coordScroll, Strategy.keyboard, Strategy.wheel, Strategy.fractionalScroll]
    ∧ session_trace false false
      = [Strategy.coordScroll, Strategy.keyboard, Strategy.wheel, Strategy.fractionalScroll] := by
  exact ⟨loop_stagnation_exit, by decide, by decide, by decide⟩

/-- C6: when the exact path fails, every fallback query fails and the
generic last-resort query yields no candidate elements, the locator
returns the document body as the container; the locator is a total
function, so the session does not fail outright at the container-location
step. -/
theorem c6_body_fallback (fallbacks : List (Option Container))
    (h : ∀ f ∈ fallbacks, f = none) :
    find_collection_container none fallbacks [] = Container.body := by
  unfold find_collection_container
  rw [firstFound_eq_none fallbacks h]
  rfl

theorem c6_body_fallback_witness :
    find_collection_container none [none, none] [] = Container.body :=
  c6_body_fallback [none, none] (by decide)

/-- C7: on a page with three list blocks only the last block is read —
the first two blocks never populate any field — and the entry
Creator: Hokusai in the last block populates exactly the Creator field
with the value Hokusai, label and value stripped after splitting on the
first colon. -/
theorem c7_last_block_only (b1 b2 b3 : List String) (i : Nat) (u : String)
    (img : Option String) :
    processItem i u img [b1, b2, b3] = processItem i u img [[], [], b3]
    ∧ processItem i u img [b1, b2, ["Creator: Hokusai"]]
      = setField (ogImageStep (initMetadata i u) img) "Creator" "Hokusai"
    ∧ lookupField "Creator" (processItem i u img [b1, b2, ["Creator: Hokusai"]])
      = some "Hokusai" := by
  refine ⟨rfl, rfl, ?_⟩
  have h1 : lookupField "Creator" (ogImageStep (initMetadata i u) img) = some "" := by
    rw [lookup_ogImageStep_other _ _ _ (by decide)]
    exact lookup_initMetadata_other i u "Creator" (by decide) (by decide) (by decide)
  show lookupField "Creator"
      (setField (ogImageStep (initMetadata i u) img) "Creator" "Hokusai") = some "Hokusai"
  rw [lookup_setField_self, h1]
  rfl

/-- C8: every record the extractor produces — for any page, including one
with no list blocks — and every failed-item record has exactly the fixed
field names as its keys, and any field matched by no entry of the chosen
block (other than the identifying and image fields, which are set
independently) is mapped to the empty string. -/
theorem c8_fixed_shape (i : Nat) (u : String) (img : Option String)
    (page : List (List String)) (k : String)
    (hk : k ∈ fieldnames) (h1 : k ≠ "Index") (h2 : k ≠ "Page URL")
    (h3 : k ≠ "Image Filename")
    (hm : ∀ e ∈ (lastBlock page).getD [], entryLabel e ≠ k) :
    (processItem i u img page).map Prod.fst = fieldnames
    ∧ (error_metadata i u).map Prod.fst = fieldnames
    ∧ lookupField k (processItem i u img page) = some "" := by
  refine ⟨keys_processItem i u img page, rfl, ?_⟩
  rcases hl : lastBlock page with _ | block
  · simp only [processItem, hl]
    rw [lookup_ogImageStep_other _ _ _ h3]
    exact lookup_initMetadata_other i u k hk h1 h2
  · simp only [processItem, hl]
    rw [hl] at hm
    simp only [Option.getD_some] at hm
    rw [lookup_foldl_unmatched block _ k hm]
    rw [lookup_ogImageStep_other _ _ _ h3]
    exact lookup_initMetadata_other i u k hk h1 h2

theorem c8_fixed_shape_witness :
    (processItem 1 "u" none [["Title: X"]]).map Prod.fst = fieldnames
    ∧ (error_metadata 1 "u").map Prod.fst = fieldnames
    ∧ lookupField "Creator" (processItem 1 "u" none [["Title: X"]]) = some "" :=
  c8_fixed_shape 1 "u" none [["Title: X"]] "Creator" (by decide) (by decide)
    (by decide) (by decide) (by decide)

/-- C9: a failed item yields a record with the index and the source link
populated and every other field empty, emitted in place, and the loop
continues with the subsequent items unchanged; one record is emitted per
item, so a failed item is never silently dropped. -/
theorem c9_failure_isolated (idx : Nat) (url : String)
    (rest : List (String × FetchResult)) :
    processAll idx ((url, FetchResult.err) :: rest)
      = error_metadata idx url :: processAll (idx + 1) rest
    ∧ (∀ items : List (String × FetchResult),
        (processAll idx items).length = items.length)
    ∧ lookupField "Index" (error_metadata idx url) = some (toString idx)
    ∧ lookupField "Page URL" (error_metadata idx url) = some url
    ∧ (∀ k ∈ fieldnames, k ≠ "Index" → k ≠ "Page URL" →
        lookupField k (error_metadata idx url) = some "") := by
  refine ⟨rfl, fun items => processAll_length items idx, lookup_error_index idx url,
    lookup_error_pageurl idx url, fun k hk hki hkp => ?_⟩
  unfold error_metadata
  rw [lookup_setField_ne _ _ _ _ (Ne.symm hkp), lookup_setField_ne _ _ _ _ (Ne.symm hki)]
  exact lookup_map_const fieldnames k hk

theorem c9_failure_isolated_witness :
    processAll 2 [("u", FetchResult.err)] = error_metadata 2 "u" :: processAll 3 []
    ∧ lookupField "Creator" (error_metadata 2 "u") = some "" :=
  ⟨(c9_failure_isolated 2 "u" []).1,
   (c9_failure_isolated 2 "u" []).2.2.2.2 "Creator" (by decide) (by decide) (by decide)⟩

/-- C10: a list entry whose text contains no colon is skipped entirely:
it leaves the record unchanged, and its presence anywhere in the processed
block does not affect the resulting record. -/
theorem c10_no_separator_skipped (m : List (String × String)) (pre post : List String)
    (entry : String) (h : entry.data.contains ':' = false) :
    processEntry m entry = m
    ∧ (pre ++ entry :: post).foldl processEntry m = (pre ++ post).foldl processEntry m := by
  have h1 : ∀ m2 : List (String × String), processEntry m2 entry = m2 := by
    intro m2
    simp only [processEntry]
    rw [if_neg (by rw [h]; exact Bool.false_ne_true)]
  refine ⟨h1 m, ?_⟩
  rw [List.foldl_append, List.foldl_append, List.foldl_cons, h1]

theorem c10_no_separator_skipped_witness :
    processEntry [] "no separator" = []
    ∧ (["Creator: Hokusai"] ++ "no separator" :: []).foldl processEntry []
      = (["Creator: Hokusai"] ++ []).foldl processEntry [] :=
  c10_no_separator_skipped [] ["Creator: Hokusai"] [] "no separator" (by decide)
